import Mathlib

/-!
Verification of the loyalty-bot reconciliation and bonus-ledger core.

The definitions below are a shallow embedding of the Python sources:
  * `admin/main.py`  — phone normalisation, status mapping, the YClients
    record reconciler (`sync_yclients_records_once`) and the manual
    bonus endpoint (`user_manual_bonus`);
  * `bot/db.py`      — the bonus ledger (`try_add_fixed_bonus`,
    `apply_promocode`, `reward_referral_after_visit`,
    `sync_bonus_from_yclients`, `sync_bonus_to_yclients`);
  * `bot/booking_events.py` — `log_booking_event`;
  * `bot/yclients_client.py` — the fetch pipeline (`_get`,
    `get_all_records`).

Datetimes are modelled as integers (naive-UTC minutes); Python dict
fields that may be absent are `Option`s.  Fields that the code reads
through `int(...)`-conversion helpers are modelled post-conversion: an
absent or non-convertible value is `none`.
-/

namespace LoyaltyBot

/-! ### String helpers

Character-list implementations of the Python string methods the code
uses (`.lower()`, `.upper()`, `.strip()`, `.startswith`), written over
`String.data` so that concrete runs reduce in the kernel. -/

def strLower (s : String) : String := String.mk (s.data.map Char.toLower)

def strUpper (s : String) : String := String.mk (s.data.map Char.toUpper)

def listTrim (l : List Char) : List Char :=
  ((l.dropWhile Char.isWhitespace).reverse.dropWhile Char.isWhitespace).reverse

def strTrim (s : String) : String := String.mk (listTrim s.data)

/-! ### Python value model

A fragment of Python values as they occur in the status fields of a
YClients record: integers and strings, with Python truthiness. -/

inductive PyVal where
  | pInt : Int → PyVal
  | pStr : String → PyVal
deriving DecidableEq, Repr

/-- Python truthiness for the modelled values: `0` and `""` are falsy. -/
def PyVal.truthy : PyVal → Bool
  | .pInt n => n != 0
  | .pStr s => s != ""

/-- Python `str(...)` on the modelled values. -/
def PyVal.str : PyVal → String
  | .pInt n => toString n
  | .pStr s => s

/-- Python `int(...)` on the modelled values: identity on ints, digit
parsing (with an optional sign) on strings, `none` where `int()` would
raise. -/
def PyVal.toInt : PyVal → Option Int
  | .pInt n => some n
  | .pStr s =>
    let t := strTrim s
    let (neg, ds) :=
      match t.data with
      | '-' :: rest => (true, rest)
      | '+' :: rest => (false, rest)
      | l => (false, l)
    if ds ≠ [] ∧ ds.all Char.isDigit then
      let v : Int := ds.foldl (fun acc c => acc * 10 + (c.toNat - '0'.toNat : Int)) 0
      some (if neg then -v else v)
    else
      none

/-- First truthy value of a chain of optional dict lookups, defaulting
to `""` — Python `a.get(x) or a.get(y) or ... or ""`. -/
def firstTruthy : List (Option PyVal) → PyVal
  | [] => .pStr ""
  | none :: rest => firstTruthy rest
  | some v :: rest => if v.truthy then v else firstTruthy rest

/-- Python substring containment `pat in s`. -/
def strContains (s pat : String) : Bool :=
  (List.range (s.data.length + 1)).any fun i => pat.data.isPrefixOf (s.data.drop i)

/-! ### Booking event types (`bot/db.py`, `BookingEventType`) -/

inductive BookingEventType where
  | CLICK_BOOKING
  | CREATED
  | COMPLETED
  | CANCELLED
deriving DecidableEq, Repr

/-! ### External records (the slice of a YClients record dict the core reads) -/

structure ClientBlock where
  phone : Option String := none
deriving DecidableEq, Repr

structure Rec where
  deleted : Bool := false
  attendance : Option PyVal := none
  visit_attendance : Option PyVal := none
  status : Option PyVal := none
  is_payed : Bool := false
  is_paid : Bool := false
  paid_full : Bool := false
  payment_status : Option PyVal := none
  -- record/client ids, modelled post-`int()` conversion
  id : Option Int := none
  record_id : Option Int := none
  booking_id : Option Int := none
  client_id : Option Int := none
  client : Option ClientBlock := none
  phone : Option String := none
  client_phone : Option String := none
  -- datetime fields, modelled as already-parsed naive-UTC minutes
  create_date : Option Int := none
  created_at : Option Int := none
  date : Option Int := none
  datetime : Option Int := none
  start_time : Option Int := none
deriving DecidableEq, Repr

/-! ### `_map_record_status` (admin/main.py) -/

/-- `_map_record_status`: classify a YClients record into
CREATED / COMPLETED / CANCELLED. -/
def map_record_status (r : Rec) : BookingEventType :=
  let status_raw := firstTruthy [r.attendance, r.visit_attendance, r.status]
  let num_status := status_raw.toInt
  let status := strLower status_raw.str
  let payment_status_raw := r.payment_status.getD (.pStr "")
  let is_paid : Bool :=
    r.is_payed || r.is_paid || r.paid_full
      || strLower payment_status_raw.str == "paid"
      || (match payment_status_raw with | .pInt n => n > 0 | .pStr _ => false)
  if r.deleted then .CANCELLED
  else if num_status = some 2 then .COMPLETED
  else if num_status = some 4 ∨ num_status = some 5 then .CANCELLED
  else if strContains status "cancel" || strContains status "delete" then .CANCELLED
  else if strContains status "visit" || strContains status "completed"
       || strContains status "done" || strContains status "finish" || is_paid then .COMPLETED
  else .CREATED

/-- Formalisation of the claim's five first-match-wins rules, written
from the spec's words (for comparison with `map_record_status`). -/
def spec_map_status (r : Rec) : BookingEventType :=
  let raw := firstTruthy [r.attendance, r.visit_attendance, r.status]
  let code := raw.toInt
  let text := strLower raw.str
  let paidIndicator : Bool :=
    r.is_payed || r.is_paid || r.paid_full
      || strLower (r.payment_status.getD (.pStr "")).str == "paid"
      || (match r.payment_status.getD (.pStr "") with
          | .pInt n => n > 0 | .pStr _ => false)
  -- rule 1: explicit deleted flag
  if r.deleted then .CANCELLED
  -- rule 2: numeric attendance code
  else if code = some 2 then .COMPLETED
  else if code = some 4 ∨ code = some 5 then .CANCELLED
  -- rule 3: cancellation keywords
  else if strContains text "cancel" || strContains text "delete" then .CANCELLED
  -- rule 4: completion keywords or a paid indicator
  else if strContains text "visit" || strContains text "completed"
       || strContains text "done" || strContains text "finish"
       || paidIndicator then .COMPLETED
  -- rule 5: default
  else .CREATED

/-! ### `_normalize_phone` / `_phone_variants` (admin/main.py) -/

/-- `_normalize_phone`: keep digits, rewrite a leading `8` of an
11-digit number to `7`, prefix a bare 10-digit number with `7`, and
return the result only when exactly 11 digits remain. -/
def normalize_phone (phone : String) : Option String :=
  if phone = "" then none
  else
    let digits := phone.data.filter Char.isDigit
    if digits = [] then none
    else
      let digits :=
        if digits.length = 11 ∧ digits.head? = some '8' then '7' :: digits.tail
        else digits
      let digits := if digits.length = 10 then '7' :: digits else digits
      if digits.length = 11 then some (String.mk digits) else none

/-- `_phone_variants`: equivalent representations of a normalised
phone used to match stored `User.phone` values. -/
def phone_variants (normalized : Option String) : List String :=
  match normalized with
  | none => []
  | some n =>
    if n = "" then []
    else if n.data.head? = some '7' ∧ n.length = 11 then
      let core := n.drop 1
      [n, "+7" ++ core, "8" ++ core, core]
    else [n]

/-! ### Booking events (`bot/db.py` model, `bot/booking_events.py` logger) -/

structure BEvent where
  user_id : Nat
  event_type : BookingEventType
  /-- `meta["record_id"]`, when the event carries one. -/
  record_id : Option Int := none
  created_at : Int
deriving DecidableEq, Repr

abbrev EventLog := List BEvent

/-- Does a COMPLETED event for this external record id exist?
(the `meta["record_id"].astext == str(record_id)` queries). -/
def completedExists (log : EventLog) (rid : Int) : Bool :=
  log.any fun e => e.event_type == .COMPLETED && e.record_id == some rid

/-- Does a CANCELLED event for this external record id exist? -/
def cancelledExists (log : EventLog) (rid : Int) : Bool :=
  log.any fun e => e.event_type == .CANCELLED && e.record_id == some rid

/-- Does an event of this kind for this record id exist? -/
def eventExists (log : EventLog) (ty : BookingEventType) (rid : Int) : Bool :=
  log.any fun e => e.event_type == ty && e.record_id == some rid

/-- `log_booking_event` (bot/booking_events.py): logging a CANCELLED
with a truthy `record_id` first deletes every COMPLETED event carrying
the same record id, then the event is appended. -/
def log_booking_event (log : EventLog) (uid : Nat) (ty : BookingEventType)
    (recId : Option Int) (now : Int) : EventLog :=
  let log :=
    if ty == .CANCELLED && (match recId with | some r => r != 0 | none => false) then
      log.filter fun e => !(e.event_type == .COMPLETED && e.record_id == recId)
    else log
  log ++ [{ user_id := uid, event_type := ty, record_id := recId, created_at := now }]

/-- `_log_event_if_needed` (admin/main.py): delete COMPLETED on a
CANCELLED, then append only when no event of the same kind exists for
this record id.  Returns the new log and whether an event was added. -/
def log_event_if_needed (log : EventLog) (uid : Nat) (recId : Int)
    (ty : BookingEventType) (now : Int) : EventLog × Bool :=
  let log :=
    if ty == .CANCELLED then
      log.filter fun e => !(e.event_type == .COMPLETED && e.record_id == some recId)
    else log
  if eventExists log ty recId then (log, false)
  else (log_booking_event log uid ty (some recId) now, true)

/-! ### Users and record resolution (admin/main.py reconciler) -/

structure UserRow where
  id : Nat
  phone : Option String := none
  yclients_client_id : Option Int := none
  is_new_client : Option Bool := none
deriving DecidableEq, Repr

/-- `_extract_record_id`: first of the `id`/`record_id`/`booking_id`
keys that is present and int-convertible. -/
def extract_record_id (r : Rec) : Option Int :=
  r.id <|> r.record_id <|> r.booking_id

/-- `_extract_client_id`: `client_id` key if present, else `client.id`;
modelled post-conversion. -/
def extract_client_id (r : Rec) : Option Int :=
  r.client_id

/-- The raw phone the reconciler reads:
`client.phone or record.phone or record.client_phone or ""`
(Python `or`, so an empty string falls through). -/
def recPhoneRaw (r : Rec) : String :=
  let candidates := [(r.client.bind (·.phone)), r.phone, r.client_phone]
  match candidates.find? (fun c => match c with | some s => s ≠ "" | none => false) with
  | some (some s) => s
  | _ => ""

/-- `_parse_record_datetime`: first parseable of
`create_date`/`date`/`datetime`/`start_time`, falling back to now. -/
def parse_record_datetime (r : Rec) (now : Int) : Int :=
  ((r.create_date <|> r.date <|> r.datetime <|> r.start_time)).getD now

/-- `_parse_dt_fields(record, ["create_date", "created_at", "datetime",
"date"])` as used for the reference timestamp. -/
def parse_created_dt (r : Rec) : Option Int :=
  r.create_date <|> r.created_at <|> r.datetime <|> r.date

/-- The record's reference datetime: its creation timestamp if present,
else its appointment datetime (`reference_dt = created_dt or record_dt`). -/
def referenceDt (r : Rec) (now : Int) : Int :=
  (parse_created_dt r).getD (parse_record_datetime r now)

/-- Identity resolution: phone-variant match first, then stored
YClients client id (`sync_yclients_records_once`). -/
def resolveUser (users : List UserRow) (r : Rec) : Option UserRow :=
  let normalized := normalize_phone (recPhoneRaw r)
  let byPhone :=
    match normalized with
    | some np => users.find? fun u =>
        match u.phone with
        | some p => p ∈ phone_variants (some np)
        | none => false
    | none => none
  match byPhone with
  | some u => some u
  | none =>
    match extract_client_id r with
    | some cid =>
      if cid ≠ 0 then users.find? (fun u => u.yclients_client_id = some cid) else none
    | none => none

/-- Most recent CLICK_BOOKING timestamp of a user
(`ORDER BY created_at DESC LIMIT 1`). -/
def lastClick (log : EventLog) (uid : Nat) : Option Int :=
  (log.filter fun e => e.user_id == uid && e.event_type == .CLICK_BOOKING).foldl
    (fun acc e =>
      match acc with
      | none => some e.created_at
      | some m => if m < e.created_at then some e.created_at else some m)
    none

/-- Absolute value of a time delta (`if delta.total_seconds() < 0:
delta = -delta`). -/
def absDelta (a b : Int) : Int := if a - b < 0 then -(a - b) else a - b

/-! ### The reconciler loop body (`sync_yclients_records_once`) -/

structure Stats where
  success : Bool := true
  processed : Nat := 0
  created : Nat := 0
  completed : Nat := 0
  cancelled : Nat := 0
deriving DecidableEq, Repr

def Stats.bump (s : Stats) : BookingEventType → Stats
  | .CREATED => { s with created := s.created + 1 }
  | .COMPLETED => { s with completed := s.completed + 1 }
  | .CANCELLED => { s with cancelled := s.cancelled + 1 }
  | .CLICK_BOOKING => s

/-- Body of `for ev in events_to_log`: log the event if needed and
count it when it was added. -/
def emitStep (uid : Nat) (rid : Int) (now : Int)
    (acc : EventLog × Stats) (ev : BookingEventType) : EventLog × Stats :=
  let (log, stats) := acc
  let (log, added) := log_event_if_needed log uid rid ev now
  (log, if added then stats.bump ev else stats)

/-- One iteration of the reconciler's per-record loop: extract the
record id, resolve an identity, apply the click-attribution gate,
classify, guard COMPLETED against an existing CANCELLED, and emit the
deduplicated events. -/
def processRecord (users : List UserRow) (windowMin : Int) (now : Int)
    (acc : EventLog × Stats) (r : Rec) : EventLog × Stats :=
  let (log, stats) := acc
  match extract_record_id r with
  | none => (log, stats)
  | some rid =>
    if rid = 0 then (log, stats)  -- `if not record_id: continue`
    else
      match resolveUser users r with
      | none => (log, stats)
      | some user =>
        match lastClick log user.id with
        | none => (log, stats)
        | some click =>
          let reference := referenceDt r now
          if absDelta reference click > windowMin then (log, stats)
          else
            let status_event := map_record_status r
            if status_event == .COMPLETED && cancelledExists log rid then (log, stats)
            else
              let events_to_log :=
                [BookingEventType.CREATED] ++
                  (if status_event == .CANCELLED then [BookingEventType.CANCELLED]
                   else if status_event == .COMPLETED then [BookingEventType.COMPLETED]
                   else [])
              let res := events_to_log.foldl (emitStep user.id rid now) (log, stats)
              (res.1, { res.2 with processed := res.2.processed + 1 })

/-! ### The fetch pipeline (`bot/yclients_client.py`) -/

/-- Parsed JSON shapes `get_all_records` distinguishes. -/
inductive JsonData where
  /-- not a dict: `isinstance(data, dict)` fails -/
  | notDict
  /-- a dict whose `data` field is a list of records (`none` when the
  field is absent, falsy or not a list) -/
  | dict (records : Option (List Rec))

/-- Outcome of the HTTP GET behind `get_all_records`. -/
inductive FetchOutcome where
  /-- transport error: `aiohttp` raises, nothing catches it -/
  | netError
  /-- response with a non-200 status (`_get` returns `None`) -/
  | httpError (status : Nat)
  /-- 200 response whose body fails to parse as JSON (`_get` returns `None`) -/
  | badJson
  /-- 200 response with parsed JSON -/
  | okJson (data : JsonData)

/-- `_get`: `.error` models an uncaught transport exception; `none`
models the logged-and-swallowed non-200 / bad-JSON cases. -/
def yclients_get : FetchOutcome → Except Unit (Option JsonData)
  | .netError => .error ()
  | .httpError _ => .ok none
  | .badJson => .ok none
  | .okJson d => .ok (some d)

/-- `get_all_records`: invalid or empty payloads become `[]`; a raised
transport exception propagates. -/
def get_all_records (f : FetchOutcome) : Except Unit (List Rec) :=
  match yclients_get f with
  | .error e => .error e
  | .ok none => .ok []
  | .ok (some .notDict) => .ok []
  | .ok (some (.dict none)) => .ok []
  | .ok (some (.dict (some rs))) => .ok rs

/-- `sync_yclients_records_once`: fetch the window, short-circuit on an
empty batch, else fold the per-record loop.  A transport exception from
the fetch propagates to the caller as `.error`. -/
def sync_yclients_records_once (users : List UserRow) (log : EventLog)
    (fetch : FetchOutcome) (windowMin : Int) (now : Int) :
    Except Unit (EventLog × Stats) :=
  match get_all_records fetch with
  | .error e => .error e
  | .ok records =>
    if records.isEmpty then .ok (log, {})
    else .ok (records.foldl (processRecord users windowMin now) (log, {}))

/-! ### The bonus ledger (`bot/db.py`, `admin/main.py`) -/

inductive BonusTxType where
  | ACCRUAL
  | DEBIT
deriving DecidableEq, Repr

inductive BonusSource where
  | REVIEW
  | WELCOME
  | REFERRAL
  | SUBSCRIPTION
  | MANUAL
  | PROMOCODE
deriving DecidableEq, Repr

/-- The Python `str`-enum value of a transaction source. -/
def BonusSource.val : BonusSource → String
  | .REVIEW => "REVIEW"
  | .WELCOME => "WELCOME"
  | .REFERRAL => "REFERRAL"
  | .SUBSCRIPTION => "SUBSCRIPTION"
  | .MANUAL => "MANUAL"
  | .PROMOCODE => "PROMOCODE"

structure BonusTx where
  user_id : Nat
  amount : Int
  type : BonusTxType
  source : BonusSource
  created_by : Option String := none
  comment : String := ""
deriving DecidableEq, Repr

/-- `UserBonus` row. -/
structure Account where
  user_id : Nat
  balance : Int := 0
  welcome_given : Bool := false
  channel_given : Bool := false
  review_yandex_given : Bool := false
  review_2gis_given : Bool := false
  referral_code : String
  referred_by_code : Option String := none
  referral_earned : Int := 0
  referral_visit_reward_given : Bool := false
  referral_bound_at : Option Int := none
deriving DecidableEq, Repr

structure Promo where
  code : String
  bonus_amount : Int
  max_uses : Int := 0
  current_uses : Int := 0
  valid_from : Option Int := none
  valid_to : Option Int := none
  is_active : Bool := true
deriving DecidableEq, Repr

structure PromoUsage where
  code : String
  user_id : Nat
deriving DecidableEq, Repr

structure LedgerSt where
  accounts : List Account := []
  txs : List BonusTx := []
  promos : List Promo := []
  usages : List PromoUsage := []
deriving DecidableEq, Repr

def findAccount (s : LedgerSt) (uid : Nat) : Option Account :=
  s.accounts.find? (fun a => a.user_id = uid)

/-- Replace the accounts whose `user_id` matches the given row. -/
def setAccount (s : LedgerSt) (a' : Account) : LedgerSt :=
  { s with accounts := s.accounts.map fun a => if a.user_id = a'.user_id then a' else a }

/-- `get_or_create_user_bonus`: find the wallet, else create it with
balance 0 (the fresh referral code is passed in, the source draws it at
random). -/
def get_or_create_user_bonus (s : LedgerSt) (uid : Nat) (freshCode : String) :
    LedgerSt × Account :=
  match findAccount s uid with
  | some a => (s, a)
  | none =>
    let a : Account := { user_id := uid, referral_code := freshCode }
    ({ s with accounts := s.accounts ++ [a] }, a)

/-! #### `try_add_fixed_bonus` -/

/-- The one-shot flags `try_add_fixed_bonus` is invoked with. -/
inductive Flag where
  | welcome_given
  | channel_given
  | review_yandex_given
  | review_2gis_given
deriving DecidableEq, Repr

def Account.getFlag (a : Account) : Flag → Bool
  | .welcome_given => a.welcome_given
  | .channel_given => a.channel_given
  | .review_yandex_given => a.review_yandex_given
  | .review_2gis_given => a.review_2gis_given

def Account.setFlag (a : Account) : Flag → Account
  | .welcome_given => { a with welcome_given := true }
  | .channel_given => { a with channel_given := true }
  | .review_yandex_given => { a with review_yandex_given := true }
  | .review_2gis_given => { a with review_2gis_given := true }

/-- The `source_map` of `try_add_fixed_bonus`. -/
def flagSource : Flag → BonusSource
  | .welcome_given => .WELCOME
  | .channel_given => .SUBSCRIPTION
  | .review_yandex_given => .REVIEW
  | .review_2gis_given => .REVIEW

/-- The `comment_map` of `try_add_fixed_bonus`. -/
def flagComment : Flag → String
  | .welcome_given => "Welcome bonus"
  | .channel_given => "Бонус за подписку на канал"
  | .review_yandex_given => "Бонус за отзыв на Яндекс"
  | .review_2gis_given => "Бонус за отзыв на 2ГИС"

/-- `try_add_fixed_bonus`: no-op when the one-shot flag is already
set; otherwise set the flag, credit the amount and append the
transaction in one commit.  Returns the new state and `granted`. -/
def try_add_fixed_bonus (s : LedgerSt) (uid : Nat) (freshCode : String)
    (flag : Flag) (amount : Int) : LedgerSt × Bool :=
  let (s, bonus) := get_or_create_user_bonus s uid freshCode
  if bonus.getFlag flag then (s, false)
  else
    let bonus' := { bonus.setFlag flag with balance := bonus.balance + amount }
    let tx : BonusTx :=
      { user_id := uid, amount := amount, type := .ACCRUAL,
        source := flagSource flag, comment := flagComment flag }
    let s := setAccount s bonus'
    ({ s with txs := s.txs ++ [tx] }, true)

/-! #### `user_manual_bonus` (admin/main.py) -/

inductive ManualOpKind where
  | accrual
  | writeoff
deriving DecidableEq, Repr

/-- `user_manual_bonus`: validates the form, then appends a MANUAL
transaction of the signed amount and updates the balance.  Returns the
new state and whether the operation was accepted. -/
def user_manual_bonus (s : LedgerSt) (uid : Nat) (freshCode : String)
    (operation : ManualOpKind) (amount : Int) (comment : String)
    (admin : String) : LedgerSt × Bool :=
  let (s, bonus) := get_or_create_user_bonus s uid freshCode
  if amount ≤ 0 then (s, false)
  else if strTrim comment = "" then (s, false)
  else if operation = .writeoff ∧ bonus.balance < amount then (s, false)
  else
    let delta := if operation = .accrual then amount else -amount
    let tx : BonusTx :=
      { user_id := uid, amount := delta, type := .ACCRUAL, source := .MANUAL,
        created_by := some admin, comment := strTrim comment }
    let s := setAccount s { bonus with balance := bonus.balance + delta }
    ({ s with txs := s.txs ++ [tx] }, true)

/-! #### `review_confirm` (admin/main.py) -/

/-- The ledger part of `review_confirm`: credit the review amount,
append the REVIEW transaction and set the per-platform one-shot flag
(the surrounding request/audit bookkeeping does not touch the ledger;
the guards at the top of the endpoint return without mutating it). -/
def review_confirm (s : LedgerSt) (uid : Nat) (freshCode : String)
    (amount : Int) (platform : String) (admin : String)
    (comment : Option String) : LedgerSt :=
  let (s, bonus) := get_or_create_user_bonus s uid freshCode
  let tx : BonusTx :=
    { user_id := uid, amount := amount, type := .ACCRUAL, source := .REVIEW,
      created_by := some admin,
      comment := comment.getD "Бонус за отзыв (подтвержден через админку)" }
  let bonus' :=
    let b := { bonus with balance := bonus.balance + amount }
    if platform = "yandex" then { b with review_yandex_given := true }
    else if platform = "2gis" then { b with review_2gis_given := true }
    else b
  let s := setAccount s bonus'
  { s with txs := s.txs ++ [tx] }

/-! #### `apply_promocode` (bot/db.py) -/

/-- `apply_promocode`: look the code up, run the validity guards, then
credit the amount, record the usage, bump the use counter and append
the PROMOCODE transaction in one commit. -/
def apply_promocode (s : LedgerSt) (uid : Nat) (freshCode : String)
    (codeInput : String) (now : Int) : LedgerSt × Bool × Int :=
  let code := strUpper (strTrim codeInput)
  match s.promos.find? (fun p => p.code = code) with
  | none => (s, false, 0)
  | some promo =>
    if ¬promo.is_active then (s, false, 0)
    else if (match promo.valid_from with
             | some vf => decide (now < vf) | none => false) then (s, false, 0)
    else if (match promo.valid_to with
             | some vt => decide (vt < now) | none => false) then (s, false, 0)
    else if promo.max_uses > 0 ∧ promo.max_uses ≤ promo.current_uses then (s, false, 0)
    else if s.usages.any (fun u => u.code = code ∧ u.user_id = uid) then (s, false, 0)
    else
      let (s, bonus) := get_or_create_user_bonus s uid freshCode
      let s := setAccount s { bonus with balance := bonus.balance + promo.bonus_amount }
      let s := { s with usages := s.usages ++ [({ code := code, user_id := uid } : PromoUsage)] }
      let s := { s with promos := s.promos.map fun (p : Promo) =>
        if p.code = code then { p with current_uses := p.current_uses + 1 } else p }
      let tx : BonusTx :=
        { user_id := uid, amount := promo.bonus_amount, type := .ACCRUAL,
          source := .PROMOCODE, comment := "Промокод " ++ code }
      ({ s with txs := s.txs ++ [tx] }, true, promo.bonus_amount)

/-! #### `apply_referral_if_needed` (bot/db.py) -/

/-- `apply_referral_if_needed`: bind an inbound referral code to a new
client (no balance change). -/
def apply_referral_if_needed (s : LedgerSt) (u : UserRow) (freshCode : String)
    (referral_code : Option String) (now : Int) : LedgerSt :=
  match referral_code with
  | none => s
  | some code =>
    if ¬(u.is_new_client.getD false) then s
    else
      let (s, invited) := get_or_create_user_bonus s u.id freshCode
      if invited.referred_by_code.isSome then s
      else
        match s.accounts.find? (fun a => a.referral_code = code) with
        | none => s
        | some inviter =>
          if inviter.user_id = u.id then s
          else
            setAccount s
              { invited with referred_by_code := some code, referral_bound_at := some now }

/-! #### `reward_referral_after_visit` (bot/db.py) -/

/-- `reward_referral_after_visit`: after the invited user's visit is
confirmed, credit the inviter once; reject when no code is bound, the
reward was already given, the user is not a new client, the visit
predates the binding, the inviter cannot be resolved or is the invited
user themselves.  Returns the new state and `granted`. -/
def reward_referral_after_visit (s : LedgerSt) (u : UserRow) (freshCode : String)
    (amount : Int) (visit_dt : Option Int) : LedgerSt × Bool :=
  let (s, invited) := get_or_create_user_bonus s u.id freshCode
  match invited.referred_by_code with
  | none => (s, false)
  | some code =>
    if invited.referral_visit_reward_given then (s, false)
    else if ¬(u.is_new_client.getD false) then (s, false)
    else if (match visit_dt, invited.referral_bound_at with
             | some v, some b => decide (v < b)
             | _, _ => false) then (s, false)
    else
      match s.accounts.find? (fun a => a.referral_code = code) with
      | none => (s, false)
      | some inviter =>
        if inviter.user_id = u.id then (s, false)
        else
          let inviter' :=
            { inviter with balance := inviter.balance + amount,
                           referral_earned := inviter.referral_earned + amount }
          let invited' := { invited with referral_visit_reward_given := true }
          let tx : BonusTx :=
            { user_id := inviter.user_id, amount := amount, type := .ACCRUAL,
              source := .REFERRAL,
              comment := "Реферальный бонус за приглашение пользователя ID "
                ++ toString u.id }
          let s := setAccount s inviter'
          let s := setAccount s invited'
          ({ s with txs := s.txs ++ [tx] }, true)

/-! #### `sync_bonus_from_yclients` (bot/db.py) — the pull path -/

/-- Result of the external balance read `get_bot_card_balance`:
`none` models an exception during the external call (caught, logged,
`None` returned); `some none` means no loyalty card; `some (some b)`
is a fetched balance. -/
abbrev ExtBalance := Option (Option Int)

/-- `sync_bonus_from_yclients`: pull the external balance; when it
differs from the cached balance, append one transaction of the signed
difference (source MANUAL, `created_by="system"`) and set the cached
balance to the external value.  Returns the new state and the returned
balance. -/
def sync_bonus_from_yclients (s : LedgerSt) (u : UserRow) (ext : ExtBalance) :
    LedgerSt × Option Int :=
  if u.phone = none then (s, none)
  else
    match ext with
    | none => (s, none)
    | some none => (s, none)
    | some (some yclients_balance) =>
      match findAccount s u.id with
      | none => (s, some yclients_balance)
      | some bonus =>
        if bonus.balance ≠ yclients_balance then
          let delta := yclients_balance - bonus.balance
          let tx : BonusTx :=
            { user_id := u.id, amount := delta,
              type := if delta > 0 then .ACCRUAL else .DEBIT,
              source := .MANUAL, created_by := some "system",
              comment :=
                if delta < 0 then "Синхронизация YClients (оплата/списание)"
                else "Синхронизация YClients (начисление)" }
          let s := setAccount s { bonus with balance := yclients_balance }
          ({ s with txs := s.txs ++ [tx] }, some yclients_balance)
        else (s, some yclients_balance)

/-! #### `sync_bonus_to_yclients` (bot/db.py) — the push path -/

/-- Outcome of `yclients.sync_client_bonus_balance`: `none` models a
raised exception, `some b` a returned success flag. -/
abbrev ExtPush := Option Bool

/-- `sync_bonus_to_yclients`: returns `False` without contacting the
external system when the user lacks a YClients client id or a phone;
any exception from the external call is caught and reported as
`False`.  Never touches the ledger, so the state is passed through. -/
def sync_bonus_to_yclients (s : LedgerSt) (u : UserRow) (_balance : Int)
    (_delta : Option Int) (ext : ExtPush) : LedgerSt × Bool :=
  if u.yclients_client_id = none then (s, false)
  else if u.phone = none then (s, false)
  else
    match ext with
    | none => (s, false)
    | some success => (s, success)

/-! ### The ledger operations reachable in the sources, and invariant I1 -/

/-- The ledger operations the system performs (each constructor embeds
one mutation path of the sources; paths that return without touching the
ledger are the identity and need no constructor). -/
inductive LOp where
  | grantOnce (uid : Nat) (freshCode : String) (flag : Flag) (amount : Int)
  | manual (uid : Nat) (freshCode : String) (kind : ManualOpKind) (amount : Int)
      (comment : String) (admin : String)
  | reviewConfirm (uid : Nat) (freshCode : String) (amount : Int) (platform : String)
      (admin : String) (comment : Option String)
  | createPromo (p : Promo)
  | promo (uid : Nat) (freshCode : String) (codeInput : String) (now : Int)
  | bindReferral (u : UserRow) (freshCode : String) (code : Option String) (now : Int)
  | rewardReferral (u : UserRow) (freshCode : String) (amount : Int) (visit : Option Int)
  | pullSync (u : UserRow) (ext : ExtBalance)

def ledgerStep (s : LedgerSt) : LOp → LedgerSt
  | .grantOnce uid c f amt => (try_add_fixed_bonus s uid c f amt).1
  | .manual uid c k amt cm ad => (user_manual_bonus s uid c k amt cm ad).1
  | .reviewConfirm uid c amt pl ad cm => review_confirm s uid c amt pl ad cm
  | .createPromo p => { s with promos := s.promos ++ [p] }
  | .promo uid c ci now => (apply_promocode s uid c ci now).1
  | .bindReferral u c code now => apply_referral_if_needed s u c code now
  | .rewardReferral u c amt v => (reward_referral_after_visit s u c amt v).1
  | .pullSync u ext => (sync_bonus_from_yclients s u ext).1

/-- Run a sequence of ledger operations from the empty database. -/
def ledgerRun (ops : List LOp) : LedgerSt := ops.foldl ledgerStep {}

/-- Sum of the amounts of a user's transactions. -/
def txSum (txs : List BonusTx) (uid : Nat) : Int :=
  ((txs.filter fun t => t.user_id = uid).map (·.amount)).sum

/-- Invariant I1, together with the auxiliary fact that every
transaction belongs to an existing account (needed so that lazily
created wallets start from an empty ledger slice). -/
def LedgerInv (s : LedgerSt) : Prop :=
  (∀ a ∈ s.accounts, a.balance = txSum s.txs a.user_id) ∧
  (∀ t ∈ s.txs, ∃ a ∈ s.accounts, a.user_id = t.user_id)

theorem txSum_append (xs ys : List BonusTx) (uid : Nat) :
    txSum (xs ++ ys) uid = txSum xs uid + txSum ys uid := by
  simp [txSum, List.filter_append]

theorem txSum_single (t : BonusTx) (uid : Nat) :
    txSum [t] uid = if t.user_id = uid then t.amount else 0 := by
  by_cases h : t.user_id = uid <;> simp [txSum, h]

theorem txSum_nil (uid : Nat) : txSum [] uid = 0 := rfl

theorem findAccount_user_id {s : LedgerSt} {uid : Nat} {a : Account}
    (h : findAccount s uid = some a) : a.user_id = uid := by
  have := List.find?_some h
  simpa using this

theorem findAccount_mem {s : LedgerSt} {uid : Nat} {a : Account}
    (h : findAccount s uid = some a) : a ∈ s.accounts :=
  List.mem_of_find?_eq_some h

theorem findAccount_none {s : LedgerSt} {uid : Nat}
    (h : findAccount s uid = none) : ∀ a ∈ s.accounts, a.user_id ≠ uid := by
  intro a ha
  have := List.find?_eq_none.mp h a ha
  simpa using this

/-- Master preservation step: updating the accounts pointwise while
appending transactions keeps I1, provided user ids are preserved and
each account's balance moves by exactly the sum of the new
transactions charged to it. -/
theorem inv_map_append (s : LedgerSt) (g : Account → Account) (ts : List BonusTx)
    (P : List Promo) (U : List PromoUsage)
    (hid : ∀ a, (g a).user_id = a.user_id)
    (hbal : ∀ a ∈ s.accounts, (g a).balance = a.balance + txSum ts a.user_id)
    (hcov : ∀ t ∈ ts, ∃ a ∈ s.accounts, a.user_id = t.user_id)
    (h : LedgerInv s) :
    LedgerInv { accounts := s.accounts.map g, txs := s.txs ++ ts,
                promos := P, usages := U } := by
  obtain ⟨h1, h2⟩ := h
  constructor
  · intro b hb
    simp only [List.mem_map] at hb
    obtain ⟨a, ha, rfl⟩ := hb
    simp only [hid, txSum_append]
    rw [← h1 a ha, hbal a ha]
  · intro t ht
    simp only [List.mem_append] at ht
    rcases ht with ht | ht
    · obtain ⟨a, ha, hua⟩ := h2 t ht
      exact ⟨g a, List.mem_map_of_mem g ha, by rw [hid]; exact hua⟩
    · obtain ⟨a, ha, hua⟩ := hcov t ht
      exact ⟨g a, List.mem_map_of_mem g ha, by rw [hid]; exact hua⟩

/-- Lazily creating a wallet preserves I1: a user with no account has
no transactions, so the fresh zero balance is consistent. -/
theorem inv_get_or_create (s : LedgerSt) (uid : Nat) (code : String)
    (h : LedgerInv s) : LedgerInv (get_or_create_user_bonus s uid code).1 := by
  obtain ⟨h1, h2⟩ := h
  unfold get_or_create_user_bonus
  cases hf : findAccount s uid with
  | some a => exact ⟨h1, h2⟩
  | none =>
    have hno : ∀ a ∈ s.accounts, a.user_id ≠ uid := findAccount_none hf
    have hzero : txSum s.txs uid = 0 := by
      have : s.txs.filter (fun t => t.user_id = uid) = [] := by
        apply List.filter_eq_nil_iff.mpr
        intro t ht
        obtain ⟨a, ha, hua⟩ := h2 t ht
        simp [hua ▸ hno a ha]
      simp [txSum, this]
    constructor
    · intro a ha
      simp only [List.mem_append, List.mem_singleton] at ha
      rcases ha with ha | rfl
      · exact h1 a ha
      · simpa using hzero.symm
    · intro t ht
      obtain ⟨a, ha, hua⟩ := h2 t ht
      exact ⟨a, List.mem_append_left _ ha, hua⟩

theorem get_or_create_uid (s : LedgerSt) (uid : Nat) (code : String) :
    (get_or_create_user_bonus s uid code).2.user_id = uid := by
  unfold get_or_create_user_bonus
  cases hf : findAccount s uid with
  | some a => exact findAccount_user_id hf
  | none => rfl

theorem get_or_create_mem (s : LedgerSt) (uid : Nat) (code : String) :
    (get_or_create_user_bonus s uid code).2 ∈
      (get_or_create_user_bonus s uid code).1.accounts := by
  unfold get_or_create_user_bonus
  cases hf : findAccount s uid with
  | some a => exact findAccount_mem hf
  | none => simp

theorem get_or_create_txs (s : LedgerSt) (uid : Nat) (code : String) :
    (get_or_create_user_bonus s uid code).1.txs = s.txs := by
  unfold get_or_create_user_bonus
  cases hf : findAccount s uid with
  | some a => rfl
  | none => rfl

theorem setFlag_user_id (a : Account) (f : Flag) : (a.setFlag f).user_id = a.user_id := by
  cases f <;> rfl

theorem setFlag_balance (a : Account) (f : Flag) : (a.setFlag f).balance = a.balance := by
  cases f <;> rfl

theorem inv_try_add_fixed_bonus (s : LedgerSt) (uid : Nat) (c : String) (f : Flag)
    (amt : Int) (h : LedgerInv s) :
    LedgerInv (try_add_fixed_bonus s uid c f amt).1 := by
  have hinv1 : LedgerInv (get_or_create_user_bonus s uid c).1 := inv_get_or_create s uid c h
  have huid := get_or_create_uid s uid c
  have hmem := get_or_create_mem s uid c
  rcases hgc : get_or_create_user_bonus s uid c with ⟨s1, bonus⟩
  rw [hgc] at hinv1 huid hmem
  simp only at huid hmem hinv1
  unfold try_add_fixed_bonus
  rw [hgc]
  by_cases hflag : bonus.getFlag f
  · simpa [hflag] using hinv1
  · simp only [hflag, Bool.false_eq_true, if_false]
    have hbb : bonus.balance = txSum s1.txs uid := by
      have := hinv1.1 bonus hmem
      rwa [huid] at this
    exact inv_map_append s1
      (fun a => if a.user_id = ({ bonus.setFlag f with balance := bonus.balance + amt } : Account).user_id
                then { bonus.setFlag f with balance := bonus.balance + amt } else a)
      [{ user_id := uid, amount := amt, type := .ACCRUAL,
         source := flagSource f, comment := flagComment f }]
      s1.promos s1.usages
      (by
        intro a
        by_cases ha : a.user_id = ({ bonus.setFlag f with balance := bonus.balance + amt } : Account).user_id
        · simp [ha, setFlag_user_id]
        · simp [ha])
      (by
        intro a ha
        have hbu : ({ bonus.setFlag f with balance := bonus.balance + amt } : Account).user_id
            = uid := by
          simp [setFlag_user_id, huid]
        by_cases hau : a.user_id = uid
        · have hab : a.balance = txSum s1.txs uid := by
            have := hinv1.1 a ha
            rwa [hau] at this
          simp [hbu, hau, txSum_single, hab, hbb, setFlag_user_id, huid]
        · simp [hbu, hau, txSum_single, Ne.symm hau, setFlag_user_id, huid])
      (by
        intro t ht
        simp only [List.mem_singleton] at ht
        subst ht
        exact ⟨bonus, hmem, huid⟩)
      hinv1

/-- Pointwise user-id preservation of a single-account replacement. -/
theorem hid_single (a' : Account) :
    ∀ a : Account,
      ((fun a => if a.user_id = a'.user_id then a' else a) a).user_id = a.user_id := by
  intro a
  by_cases hau : a.user_id = a'.user_id <;> simp [hau]

/-- Balance bookkeeping of a single-account credit under I1. -/
theorem hbal_single (s1 : LedgerSt) (bonus a' : Account) (t : BonusTx)
    (hid' : a'.user_id = bonus.user_id)
    (hbal' : a'.balance = bonus.balance + t.amount)
    (htu : t.user_id = bonus.user_id)
    (hmem : bonus ∈ s1.accounts)
    (hinv1 : LedgerInv s1) :
    ∀ a ∈ s1.accounts,
      ((fun a => if a.user_id = a'.user_id then a' else a) a).balance
        = a.balance + txSum [t] a.user_id := by
  intro a ha
  by_cases hau : a.user_id = bonus.user_id
  · have hab : a.balance = bonus.balance := by
      rw [hinv1.1 a ha, hinv1.1 bonus hmem, hau]
    simp [hid', hau, txSum_single, hab, hbal', htu]
  · simp [hid', hau, txSum_single, htu, Ne.symm hau]

/-- Replacing one account by a same-balance, same-user row keeps I1. -/
theorem inv_setAccount_same_balance (s1 : LedgerSt) (bonus a' : Account)
    (hmem : bonus ∈ s1.accounts) (hid' : a'.user_id = bonus.user_id)
    (hbal' : a'.balance = bonus.balance) (hinv1 : LedgerInv s1) :
    LedgerInv (setAccount s1 a') := by
  obtain ⟨h1, h2⟩ := hinv1
  constructor
  · intro b hb
    simp only [setAccount, List.mem_map] at hb
    obtain ⟨a, ha, rfl⟩ := hb
    by_cases hau : a.user_id = a'.user_id
    · show (if a.user_id = a'.user_id then a' else a).balance
        = txSum s1.txs (if a.user_id = a'.user_id then a' else a).user_id
      rw [if_pos hau, hbal', hid']
      exact h1 bonus hmem
    · show (if a.user_id = a'.user_id then a' else a).balance
        = txSum s1.txs (if a.user_id = a'.user_id then a' else a).user_id
      rw [if_neg hau]
      exact h1 a ha
  · intro t ht
    obtain ⟨a, ha, hua⟩ := h2 t ht
    refine ⟨if a.user_id = a'.user_id then a' else a, ?_, ?_⟩
    · show _ ∈ s1.accounts.map fun b => if b.user_id = a'.user_id then a' else b
      exact List.mem_map_of_mem _ ha
    · by_cases hau : a.user_id = a'.user_id
      · rw [if_pos hau, ← hau]
        exact hua
      · rw [if_neg hau]
        exact hua

/-- Invariant I1 only reads accounts and transactions. -/
theorem inv_of_fields {s s' : LedgerSt} (hacc : s'.accounts = s.accounts)
    (htx : s'.txs = s.txs) (h : LedgerInv s) : LedgerInv s' := by
  obtain ⟨h1, h2⟩ := h
  constructor
  · intro a ha; rw [hacc] at ha; rw [htx]; exact h1 a ha
  · intro t ht; rw [htx] at ht; rw [hacc]; exact h2 t ht

theorem inv_user_manual_bonus (s : LedgerSt) (uid : Nat) (c : String)
    (k : ManualOpKind) (amt : Int) (cm : String) (ad : String)
    (h : LedgerInv s) : LedgerInv (user_manual_bonus s uid c k amt cm ad).1 := by
  have hinv1 : LedgerInv (get_or_create_user_bonus s uid c).1 := inv_get_or_create s uid c h
  have huid := get_or_create_uid s uid c
  have hmem := get_or_create_mem s uid c
  rcases hgc : get_or_create_user_bonus s uid c with ⟨s1, bonus⟩
  rw [hgc] at hinv1 huid hmem
  simp only at huid hmem hinv1
  unfold user_manual_bonus
  rw [hgc]
  by_cases h1 : amt ≤ 0
  · simpa [h1] using hinv1
  by_cases h2 : strTrim cm = ""
  · simpa [h1, h2] using hinv1
  by_cases h3 : k = .writeoff ∧ bonus.balance < amt
  · simpa [h1, h2, h3] using hinv1
  · simp only [h1, h2, h3, if_false]
    exact inv_map_append s1 _ _ s1.promos s1.usages
      (hid_single _)
      (hbal_single s1 bonus _ _ rfl rfl huid.symm hmem hinv1)
      (by
        intro t ht
        simp only [List.mem_singleton] at ht
        subst ht
        exact ⟨bonus, hmem, huid⟩)
      hinv1

theorem inv_review_confirm (s : LedgerSt) (uid : Nat) (c : String) (amt : Int)
    (pl : String) (ad : String) (cm : Option String) (h : LedgerInv s) :
    LedgerInv (review_confirm s uid c amt pl ad cm) := by
  have hinv1 : LedgerInv (get_or_create_user_bonus s uid c).1 := inv_get_or_create s uid c h
  have huid := get_or_create_uid s uid c
  have hmem := get_or_create_mem s uid c
  rcases hgc : get_or_create_user_bonus s uid c with ⟨s1, bonus⟩
  rw [hgc] at hinv1 huid hmem
  simp only at huid hmem hinv1
  unfold review_confirm
  rw [hgc]
  exact inv_map_append s1 _ _ s1.promos s1.usages
    (hid_single _)
    (hbal_single s1 bonus _ _
      (by by_cases hy : pl = "yandex" <;> by_cases hg : pl = "2gis" <;> simp [hy, hg])
      (by by_cases hy : pl = "yandex" <;> by_cases hg : pl = "2gis" <;> simp [hy, hg])
      huid.symm hmem hinv1)
    (by
      intro t ht
      simp only [List.mem_singleton] at ht
      subst ht
      exact ⟨bonus, hmem, huid⟩)
    hinv1

theorem inv_apply_promocode (s : LedgerSt) (uid : Nat) (c : String)
    (ci : String) (now : Int) (h : LedgerInv s) :
    LedgerInv (apply_promocode s uid c ci now).1 := by
  have hinv1 : LedgerInv (get_or_create_user_bonus s uid c).1 :=
    inv_get_or_create s uid c h
  have huid := get_or_create_uid s uid c
  have hmem := get_or_create_mem s uid c
  rcases hgc : get_or_create_user_bonus s uid c with ⟨s1, bonus⟩
  rw [hgc] at hinv1 huid hmem
  simp only at huid hmem hinv1
  simp only [apply_promocode]
  split
  · exact h
  · split
    · exact h
    split
    · exact h
    split
    · exact h
    split
    · exact h
    split
    · exact h
    · rw [hgc]
      exact inv_map_append s1 _ _ _ _
        (hid_single _)
        (hbal_single s1 bonus _ _ rfl rfl huid.symm hmem hinv1)
        (by
          intro t ht
          simp only [List.mem_singleton] at ht
          subst ht
          exact ⟨bonus, hmem, huid⟩)
        hinv1

theorem inv_apply_referral_if_needed (s : LedgerSt) (u : UserRow) (c : String)
    (code : Option String) (now : Int) (h : LedgerInv s) :
    LedgerInv (apply_referral_if_needed s u c code now) := by
  unfold apply_referral_if_needed
  cases code with
  | none => exact h
  | some cd =>
    by_cases g1 : u.is_new_client.getD false
    swap
    · simpa [g1] using h
    · have hinv1 : LedgerInv (get_or_create_user_bonus s u.id c).1 :=
        inv_get_or_create s u.id c h
      have huid := get_or_create_uid s u.id c
      have hmem := get_or_create_mem s u.id c
      rcases hgc : get_or_create_user_bonus s u.id c with ⟨s1, invited⟩
      rw [hgc] at hinv1 huid hmem
      simp only at huid hmem hinv1
      simp only [g1, if_true, hgc]
      by_cases g2 : invited.referred_by_code.isSome
      · simpa [g2] using hinv1
      · simp only [g2, Bool.false_eq_true, if_false]
        cases hfi : s1.accounts.find? (fun a => a.referral_code = cd) with
        | none => exact hinv1
        | some inviter =>
          by_cases g3 : inviter.user_id = u.id
          · simpa [g3] using hinv1
          · simp only [g3, if_false]
            exact inv_setAccount_same_balance s1 invited _ hmem rfl rfl hinv1

theorem inv_reward_referral_after_visit (s : LedgerSt) (u : UserRow) (c : String)
    (amt : Int) (visit : Option Int) (h : LedgerInv s) :
    LedgerInv (reward_referral_after_visit s u c amt visit).1 := by
  have hinv1 : LedgerInv (get_or_create_user_bonus s u.id c).1 :=
    inv_get_or_create s u.id c h
  have huid := get_or_create_uid s u.id c
  have hmem := get_or_create_mem s u.id c
  rcases hgc : get_or_create_user_bonus s u.id c with ⟨s1, invited⟩
  rw [hgc] at hinv1 huid hmem
  simp only at huid hmem hinv1
  unfold reward_referral_after_visit
  simp only [hgc]
  cases hcode : invited.referred_by_code with
  | none => exact hinv1
  | some code =>
    by_cases g1 : invited.referral_visit_reward_given
    · simpa [g1] using hinv1
    by_cases g2 : u.is_new_client.getD false
    swap
    · simpa [g1, g2] using hinv1
    by_cases g3 : (match visit, invited.referral_bound_at with
                   | some v, some b => decide (v < b)
                   | _, _ => false : Bool) = true
    · simpa [g1, g2, g3] using hinv1
    · simp only [g1, g2, g3, Bool.false_eq_true, if_false, if_true, not_false_eq_true]
      cases hfi : s1.accounts.find? (fun a => a.referral_code = code) with
      | none => exact hinv1
      | some inviter =>
        by_cases g4 : inviter.user_id = u.id
        · simpa [g4] using hinv1
        · simp only [g4, if_false]
          have hinvmem : inviter ∈ s1.accounts := List.mem_of_find?_eq_some hfi
          have hinv2 : LedgerInv
              { setAccount s1
                  { inviter with balance := inviter.balance + amt,
                                 referral_earned := inviter.referral_earned + amt }
                with txs := s1.txs ++
                  [{ user_id := inviter.user_id, amount := amt, type := .ACCRUAL,
                     source := .REFERRAL,
                     comment := "Реферальный бонус за приглашение пользователя ID "
                       ++ toString u.id }] } := by
            exact inv_map_append s1 _ _ s1.promos s1.usages
              (hid_single _)
              (hbal_single s1 inviter _ _ rfl rfl rfl hinvmem hinv1)
              (by
                intro t ht
                simp only [List.mem_singleton] at ht
                subst ht
                exact ⟨inviter, hinvmem, rfl⟩)
              hinv1
          have hmem2 : invited ∈
              ({ setAccount s1
                  { inviter with balance := inviter.balance + amt,
                                 referral_earned := inviter.referral_earned + amt }
                with txs := s1.txs ++
                  [{ user_id := inviter.user_id, amount := amt, type := .ACCRUAL,
                     source := .REFERRAL,
                     comment := "Реферальный бонус за приглашение пользователя ID "
                       ++ toString u.id }] } : LedgerSt).accounts := by
            show invited ∈ s1.accounts.map _
            have hne : ¬invited.user_id = inviter.user_id := by
              rw [huid]
              exact fun hq => g4 hq.symm
            have heq : invited = (fun a : Account =>
                if a.user_id
                    = ({ inviter with
                          balance := inviter.balance + amt,
                          referral_earned := inviter.referral_earned + amt } : Account).user_id
                then ({ inviter with
                          balance := inviter.balance + amt,
                          referral_earned := inviter.referral_earned + amt } : Account)
                else a) invited := by
              simp [hne]
            rw [heq]
            exact List.mem_map_of_mem _ hmem
          exact inv_setAccount_same_balance _ invited _ hmem2 rfl rfl hinv2

theorem inv_sync_bonus_from_yclients (s : LedgerSt) (u : UserRow) (ext : ExtBalance)
    (h : LedgerInv s) : LedgerInv (sync_bonus_from_yclients s u ext).1 := by
  simp only [sync_bonus_from_yclients]
  split
  · exact h
  · split
    · exact h
    · exact h
    · split
      · exact h
      · split
        · rename_i yb optAcc bonus hfa hne
          have hmem := findAccount_mem hfa
          have huid := findAccount_user_id hfa
          exact inv_map_append s _ _ s.promos s.usages
            (hid_single _)
            (hbal_single s bonus
              { bonus with balance := yb }
              { user_id := u.id, amount := yb - bonus.balance,
                type := if yb - bonus.balance > 0 then .ACCRUAL else .DEBIT,
                source := .MANUAL, created_by := some "system",
                comment :=
                  if yb - bonus.balance < 0 then "Синхронизация YClients (оплата/списание)"
                  else "Синхронизация YClients (начисление)" }
              rfl (by simp) huid.symm hmem h)
            (by
              intro t ht
              simp only [List.mem_singleton] at ht
              subst ht
              exact ⟨bonus, hmem, huid⟩)
            h
        · exact h

theorem ledgerStep_inv (s : LedgerSt) (op : LOp) (h : LedgerInv s) :
    LedgerInv (ledgerStep s op) := by
  cases op with
  | grantOnce uid c f amt => exact inv_try_add_fixed_bonus s uid c f amt h
  | manual uid c k amt cm ad => exact inv_user_manual_bonus s uid c k amt cm ad h
  | reviewConfirm uid c amt pl ad cm => exact inv_review_confirm s uid c amt pl ad cm h
  | createPromo p => exact inv_of_fields rfl rfl h
  | promo uid c ci now => exact inv_apply_promocode s uid c ci now h
  | bindReferral u c code now => exact inv_apply_referral_if_needed s u c code now h
  | rewardReferral u c amt v => exact inv_reward_referral_after_visit s u c amt v h
  | pullSync u ext => exact inv_sync_bonus_from_yclients s u ext h

theorem ledgerRun_inv (ops : List LOp) : LedgerInv (ledgerRun ops) := by
  have hgen : ∀ (s : LedgerSt), LedgerInv s → LedgerInv (ops.foldl ledgerStep s) := by
    induction ops with
    | nil => intro s hs; exact hs
    | cons op rest ih => intro s hs; exact ih _ (ledgerStep_inv s op hs)
  refine hgen {} ⟨?_, ?_⟩
  · intro a ha
    simp at ha
  · intro t ht
    simp at ht

/-- C1: for every identity, after any sequence of ledger operations
(one-shot grants, manual accruals and write-offs, review, referral and
promo-code credits, and pull-sync from the external balance) the cached
BonusAccount balance equals the sum of the amounts of all
BonusTransaction rows for that identity (invariant I1). -/
theorem C1_ledger_consistency (ops : List LOp) :
    ∀ a ∈ (ledgerRun ops).accounts, a.balance = txSum (ledgerRun ops).txs a.user_id :=
  (ledgerRun_inv ops).1

/-- Witness for C1 at a concrete run: a welcome grant of 500 followed
by a pull-sync against an external balance of 300. -/
theorem C1_ledger_consistency_witness :
    (({ user_id := 1, balance := 300, welcome_given := true,
        referral_code := "RC" } : Account)
        ∈ (ledgerRun
            [LOp.grantOnce 1 "RC" Flag.welcome_given 500,
             LOp.pullSync { id := 1, phone := some "79991234567" } (some (some 300))]).accounts)
    ∧ ({ user_id := 1, balance := 300, welcome_given := true,
         referral_code := "RC" } : Account).balance
        = txSum (ledgerRun
            [LOp.grantOnce 1 "RC" Flag.welcome_given 500,
             LOp.pullSync { id := 1, phone := some "79991234567" } (some (some 300))]).txs
          ({ user_id := 1, balance := 300, welcome_given := true,
             referral_code := "RC" } : Account).user_id :=
  ⟨by decide,
   C1_ledger_consistency
     [LOp.grantOnce 1 "RC" Flag.welcome_given 500,
      LOp.pullSync { id := 1, phone := some "79991234567" } (some (some 300))]
     { user_id := 1, balance := 300, welcome_given := true, referral_code := "RC" }
     (by decide)⟩

/-! ### Lookup helpers for the claim statements -/

/-- The stored one-shot flag of a user's wallet (false when no wallet exists). -/
def accountFlag (s : LedgerSt) (uid : Nat) (f : Flag) : Bool :=
  match findAccount s uid with
  | some a => a.getFlag f
  | none => false

/-- The cached balance of a user's wallet (0 when no wallet exists,
matching the lazily-created zero balance). -/
def balanceOf (s : LedgerSt) (uid : Nat) : Int :=
  match findAccount s uid with
  | some a => a.balance
  | none => 0

theorem getFlag_setFlag_self (a : Account) (f : Flag) :
    (a.setFlag f).getFlag f = true := by
  cases f <;> rfl

theorem getFlag_balance_update (a : Account) (f : Flag) (x : Int) :
    ({ a with balance := x } : Account).getFlag f = a.getFlag f := by
  cases f <;> rfl

theorem find?_map_user_pres (l : List Account) (g : Account → Account) (uid : Nat)
    (hid : ∀ a, (g a).user_id = a.user_id) :
    (l.map g).find? (fun a => a.user_id = uid) =
      (l.find? (fun a => a.user_id = uid)).map g := by
  induction l with
  | nil => rfl
  | cons a rest ih =>
    by_cases h : a.user_id = uid
    · simp [List.find?_cons, h, hid]
    · simp [List.find?_cons, h, hid, ih]

theorem findAccount_setAccount (s : LedgerSt) (a' : Account) (uid : Nat) :
    findAccount (setAccount s a') uid =
      (findAccount s uid).map fun a => if a.user_id = a'.user_id then a' else a := by
  unfold findAccount setAccount
  exact find?_map_user_pres s.accounts _ uid (hid_single a')

/-- `try_add_fixed_bonus` with the one-shot flag clear: credits once,
sets the flag and appends the matching transaction. -/
theorem try_add_spec (s : LedgerSt) (uid : Nat) (c : String) (f : Flag) (amt : Int)
    (h : accountFlag s uid f = false) :
    (try_add_fixed_bonus s uid c f amt).2 = true
    ∧ (∃ a', findAccount (try_add_fixed_bonus s uid c f amt).1 uid = some a'
        ∧ a'.getFlag f = true
        ∧ a'.balance = balanceOf s uid + amt)
    ∧ (try_add_fixed_bonus s uid c f amt).1.txs = s.txs ++
        [{ user_id := uid, amount := amt, type := .ACCRUAL,
           source := flagSource f, comment := flagComment f }] := by
  unfold try_add_fixed_bonus
  cases hfa : findAccount s uid with
  | some a =>
    have hflag : a.getFlag f = false := by
      unfold accountFlag at h
      rwa [hfa] at h
    have hgc : get_or_create_user_bonus s uid c = (s, a) := by
      unfold get_or_create_user_bonus
      rw [hfa]
    rw [hgc]
    have huid : a.user_id = uid := findAccount_user_id hfa
    simp only [hflag, Bool.false_eq_true, if_false]
    refine ⟨by simp, ⟨{ a.setFlag f with balance := a.balance + amt }, ?_, ?_, ?_⟩,
      by simp [setAccount]⟩
    · show findAccount (setAccount s _) uid = _
      rw [findAccount_setAccount, hfa]
      simp [setFlag_user_id]
    · rw [getFlag_balance_update, getFlag_setFlag_self]
    · show a.balance + amt = balanceOf s uid + amt
      unfold balanceOf
      rw [hfa]
  | none =>
    have hgc : get_or_create_user_bonus s uid c =
        ({ s with accounts := s.accounts ++ [{ user_id := uid, referral_code := c }] },
         { user_id := uid, referral_code := c }) := by
      unfold get_or_create_user_bonus
      rw [hfa]
    rw [hgc]
    have hfresh : ({ user_id := uid, referral_code := c } : Account).getFlag f = false := by
      cases f <;> rfl
    simp only [hfresh, Bool.false_eq_true, if_false]
    refine ⟨by simp,
      ⟨{ ({ user_id := uid, referral_code := c } : Account).setFlag f with
          balance := ({ user_id := uid, referral_code := c } : Account).balance + amt },
       ?_, ?_, ?_⟩, by simp [setAccount]⟩
    · show findAccount (setAccount _ _) uid = _
      rw [findAccount_setAccount]
      have hfa2 : findAccount
          { s with accounts := s.accounts ++ [{ user_id := uid, referral_code := c }] } uid
          = some { user_id := uid, referral_code := c } := by
        unfold findAccount
        simp only [List.find?_append]
        unfold findAccount at hfa
        rw [hfa]
        simp
      rw [hfa2]
      simp [setFlag_user_id]
    · rw [getFlag_balance_update, getFlag_setFlag_self]
    · show _ + amt = balanceOf s uid + amt
      unfold balanceOf
      rw [hfa]

/-- `try_add_fixed_bonus` with the one-shot flag already set: reports
`granted = false` and performs no mutation. -/
theorem try_add_already (s : LedgerSt) (uid : Nat) (c : String) (f : Flag) (amt : Int)
    (h : accountFlag s uid f = true) :
    try_add_fixed_bonus s uid c f amt = (s, false) := by
  unfold accountFlag at h
  cases hfa : findAccount s uid with
  | none => rw [hfa] at h; exact absurd h (by simp)
  | some a =>
    rw [hfa] at h
    replace h : a.getFlag f = true := h
    unfold try_add_fixed_bonus
    have hgc : get_or_create_user_bonus s uid c = (s, a) := by
      unfold get_or_create_user_bonus
      rw [hfa]
    rw [hgc]
    simp [h]

/-- C7: calling the one-shot grant twice with the same flag for the
same identity credits the account exactly once: the first call grants
and appends one transaction, and the second call returns
`granted = false`, leaves the state (balance, flags, ledger) unchanged. -/
theorem C7_one_shot_grant (s : LedgerSt) (uid : Nat) (c1 c2 : String) (f : Flag)
    (amt1 amt2 : Int) (h : accountFlag s uid f = false) :
    (try_add_fixed_bonus s uid c1 f amt1).2 = true
    ∧ try_add_fixed_bonus (try_add_fixed_bonus s uid c1 f amt1).1 uid c2 f amt2
        = ((try_add_fixed_bonus s uid c1 f amt1).1, false)
    ∧ balanceOf (try_add_fixed_bonus s uid c1 f amt1).1 uid = balanceOf s uid + amt1
    ∧ (try_add_fixed_bonus s uid c1 f amt1).1.txs = s.txs ++
        [{ user_id := uid, amount := amt1, type := .ACCRUAL,
           source := flagSource f, comment := flagComment f }] := by
  obtain ⟨hgr, ⟨a', hfa', hflag', hbal'⟩, htxs⟩ := try_add_spec s uid c1 f amt1 h
  refine ⟨hgr, ?_, ?_, htxs⟩
  · apply try_add_already
    unfold accountFlag
    rw [hfa']
    exact hflag'
  · unfold balanceOf
    rw [hfa']
    exact hbal'

/-- Witness for C7: the two-call scenario on a fresh database. -/
theorem C7_one_shot_grant_witness :
    accountFlag {} 1 Flag.welcome_given = false
    ∧ ((try_add_fixed_bonus {} 1 "RC" Flag.welcome_given 500).2 = true
      ∧ try_add_fixed_bonus (try_add_fixed_bonus {} 1 "RC" Flag.welcome_given 500).1
          1 "RD" Flag.welcome_given 500
          = ((try_add_fixed_bonus {} 1 "RC" Flag.welcome_given 500).1, false)
      ∧ balanceOf (try_add_fixed_bonus {} 1 "RC" Flag.welcome_given 500).1 1
          = balanceOf {} 1 + 500
      ∧ (try_add_fixed_bonus {} 1 "RC" Flag.welcome_given 500).1.txs = ({} : LedgerSt).txs ++
          [{ user_id := 1, amount := 500, type := .ACCRUAL,
             source := flagSource Flag.welcome_given,
             comment := flagComment Flag.welcome_given }]) :=
  ⟨by decide, C7_one_shot_grant {} 1 "RC" "RD" Flag.welcome_given 500 500 (by decide)⟩

/-- C8: a visit dated before the moment the referral code was bound
never triggers the referral credit — independent of how much time has
elapsed since the visit, the reward operation reports
`granted = false` and leaves the whole ledger state unchanged. -/
theorem C8_referral_ordering (s : LedgerSt) (u : UserRow) (c : String) (amt : Int)
    (v b : Int) (invited : Account)
    (hfa : findAccount s u.id = some invited)
    (hcode : invited.referred_by_code.isSome = true)
    (hb : invited.referral_bound_at = some b)
    (hv : v < b) :
    reward_referral_after_visit s u c amt (some v) = (s, false) := by
  obtain ⟨code, hcode'⟩ := Option.isSome_iff_exists.mp hcode
  have hgc : get_or_create_user_bonus s u.id c = (s, invited) := by
    unfold get_or_create_user_bonus
    rw [hfa]
  unfold reward_referral_after_visit
  simp only [hgc]
  simp only [hcode']
  by_cases g1 : invited.referral_visit_reward_given
  · simp [g1]
  by_cases g2 : u.is_new_client.getD false
  · simp [g1, g2, hb, hv]
  · simp [g1, g2]

def c8state : LedgerSt :=
  { accounts := [{ user_id := 1, referral_code := "RA",
                   referred_by_code := some "RB", referral_bound_at := some 100 }] }

def c8user : UserRow := { id := 1, is_new_client := some true }

/-- Witness for C8: a visit at time 50, before the binding at time 100. -/
theorem C8_referral_ordering_witness :
    reward_referral_after_visit c8state c8user "RX" 300 (some 50) = (c8state, false) :=
  C8_referral_ordering c8state c8user "RX" 300 50 100
    { user_id := 1, referral_code := "RA",
      referred_by_code := some "RB", referral_bound_at := some 100 }
    (by decide) (by decide) (by decide) (by decide)

/-! ### C4: the pull path -/

def c4state : LedgerSt :=
  { accounts := [{ user_id := 1, balance := 100, referral_code := "RA" }],
    txs := [{ user_id := 1, amount := 100, type := .ACCRUAL, source := .WELCOME }] }

def c4user : UserRow := { id := 1, phone := some "79991234567" }

/-- C4 counterexample: pulling external balance 70 against local
balance 100 appends the −30 transaction and caches 70, but the
transaction's source is the enum value MANUAL (`created_by =
"system"`), not an "external sync" source as the claim states. -/
theorem C4_counterexample :
    (sync_bonus_from_yclients c4state c4user (some (some 70))).1.txs.getLast? =
      some { user_id := 1, amount := -30, type := .DEBIT, source := .MANUAL,
             created_by := some "system",
             comment := "Синхронизация YClients (оплата/списание)" }
    ∧ BonusSource.MANUAL.val = "MANUAL"
    ∧ ("MANUAL" : String) ≠ "external sync"
    ∧ balanceOf (sync_bonus_from_yclients c4state c4user (some (some 70))).1 1 = 70 := by
  decide

/-- C4 (amended): when the pulled external balance differs from the
local cached balance, exactly one transaction of the signed difference
is appended — with source MANUAL, `created_by = "system"` and a
sync comment — and the cached balance is then set to the external
value. -/
theorem C4_pull_sync_delta (s : LedgerSt) (u : UserRow) (e : Int) (bonus : Account)
    (hp : u.phone ≠ none)
    (hfa : findAccount s u.id = some bonus)
    (hne : bonus.balance ≠ e) :
    (sync_bonus_from_yclients s u (some (some e))).1.txs = s.txs ++
        [{ user_id := u.id, amount := e - bonus.balance,
           type := if e - bonus.balance > 0 then .ACCRUAL else .DEBIT,
           source := .MANUAL, created_by := some "system",
           comment :=
             if e - bonus.balance < 0 then "Синхронизация YClients (оплата/списание)"
             else "Синхронизация YClients (начисление)" }]
    ∧ findAccount (sync_bonus_from_yclients s u (some (some e))).1 u.id
        = some { bonus with balance := e }
    ∧ (sync_bonus_from_yclients s u (some (some e))).2 = some e := by
  simp only [sync_bonus_from_yclients]
  split
  · rename_i hpn
    exact absurd hpn hp
  · split
    · rename_i heq
      rw [heq] at hfa
      simp at hfa
    · rename_i optA eAcc heq
      rw [heq] at hfa
      injection hfa with hfa'
      subst hfa'
      split
      · refine ⟨by simp [setAccount], ?_, rfl⟩
        show findAccount (setAccount s _) u.id = _
        rw [findAccount_setAccount, heq]
        simp
      · rename_i hcontra
        simp only [ne_eq, not_not] at hcontra
        exact absurd hcontra hne

/-- Witness for C4 at local=100, external=70. -/
theorem C4_pull_sync_delta_witness :
    (sync_bonus_from_yclients c4state c4user (some (some 70))).1.txs = c4state.txs ++
        [{ user_id := 1, amount := 70 - 100,
           type := if (70 : Int) - 100 > 0 then .ACCRUAL else .DEBIT,
           source := .MANUAL, created_by := some "system",
           comment :=
             if (70 : Int) - 100 < 0 then "Синхронизация YClients (оплата/списание)"
             else "Синхронизация YClients (начисление)" }]
    ∧ findAccount (sync_bonus_from_yclients c4state c4user (some (some 70))).1 1
        = some { user_id := 1, balance := 70, referral_code := "RA" }
    ∧ (sync_bonus_from_yclients c4state c4user (some (some 70))).2 = some 70 :=
  C4_pull_sync_delta c4state c4user 70
    { user_id := 1, balance := 100, referral_code := "RA" }
    (by decide) (by decide) (by decide)

/-- C10: the push-path balance sync returns False immediately when the
identity lacks an external client reference or a phone — without
contacting the external system (the result is independent of the
external outcome) — a raised exception is caught and reported as
False, and no local state is ever modified. -/
theorem C10_push_sync_guards (s : LedgerSt) (u : UserRow) (bal : Int)
    (d : Option Int) (ext ext' : ExtPush) :
    ((u.yclients_client_id = none ∨ u.phone = none) →
       sync_bonus_to_yclients s u bal d ext = (s, false)
       ∧ sync_bonus_to_yclients s u bal d ext = sync_bonus_to_yclients s u bal d ext')
    ∧ sync_bonus_to_yclients s u bal d none = (s, false)
    ∧ (sync_bonus_to_yclients s u bal d ext).1 = s := by
  unfold sync_bonus_to_yclients
  refine ⟨?_, ?_, ?_⟩
  · rintro (h | h)
    · simp [h]
    · by_cases h1 : u.yclients_client_id = none <;> simp [h1, h]
  · by_cases h1 : u.yclients_client_id = none
    · simp [h1]
    · by_cases h2 : u.phone = none <;> simp [h1, h2]
  · by_cases h1 : u.yclients_client_id = none
    · simp [h1]
    · by_cases h2 : u.phone = none
      · simp [h1, h2]
      · cases ext <;> simp [h1, h2]

/-- Witness for C10: an identity with a client reference but no phone. -/
theorem C10_push_sync_guards_witness :
    sync_bonus_to_yclients {} { id := 2, yclients_client_id := some 9 } 5 none (some true)
      = ({}, false)
    ∧ sync_bonus_to_yclients {} { id := 2, yclients_client_id := some 9 } 5 none (some true)
      = sync_bonus_to_yclients {} { id := 2, yclients_client_id := some 9 } 5 none none :=
  (C10_push_sync_guards {} { id := 2, yclients_client_id := some 9 } 5 none
    (some true) none).1 (Or.inr rfl)

/-! ### C2: the booking-event operations reachable in the sources -/

/-- The booking-event writers found in the sources: the bot's direct
CLICK_BOOKING/CREATED logs, the bot's cancel flow (`app.py`, logs
CANCELLED unconditionally after the external delete), the admin cancel
flow (`admin/main.py`, logs CANCELLED unless one already exists), and
one reconciler pass over a fetched batch.  No code path logs a
COMPLETED event outside the reconciler. -/
inductive EvOp where
  | logNonTerminal (uid : Nat) (isClick : Bool) (recId : Option Int) (now : Int)
  | botCancel (uid : Nat) (recId : Int) (now : Int)
  | adminCancel (uid : Nat) (recId : Int) (now : Int)
  | reconcile (users : List UserRow) (recs : List Rec) (w : Int) (now : Int)

def evStep (log : EventLog) : EvOp → EventLog
  | .logNonTerminal uid isClick recId now =>
      log_booking_event log uid (if isClick then .CLICK_BOOKING else .CREATED) recId now
  | .botCancel uid rid now => log_booking_event log uid .CANCELLED (some rid) now
  | .adminCancel uid rid now =>
      if cancelledExists log rid then log
      else log_booking_event log uid .CANCELLED (some rid) now
  | .reconcile users recs w now => (recs.foldl (processRecord users w now) (log, {})).1

/-- Run a sequence of booking-event operations from the empty log. -/
def evRun (ops : List EvOp) : EventLog := ops.foldl evStep []

/-- Invariant I2 together with the auxiliary fact that every COMPLETED
event carries a nonzero record id (the reconciler skips records whose
id is missing or falsy, and nothing else emits COMPLETED). -/
def EvInv (log : EventLog) : Prop :=
  (∀ rid : Int, ¬(completedExists log rid = true ∧ cancelledExists log rid = true))
  ∧ (∀ e ∈ log, e.event_type = .COMPLETED → ∃ r : Int, e.record_id = some r ∧ r ≠ 0)

theorem completedExists_eq (log : EventLog) (rid : Int) :
    completedExists log rid = eventExists log .COMPLETED rid := rfl

theorem cancelledExists_eq (log : EventLog) (rid : Int) :
    cancelledExists log rid = eventExists log .CANCELLED rid := rfl

theorem eventExists_append (l : EventLog) (e : BEvent) (ty : BookingEventType) (rid : Int) :
    eventExists (l ++ [e]) ty rid =
      (eventExists l ty rid || (e.event_type == ty && e.record_id == some rid)) := by
  simp [eventExists, List.any_append]

theorem eventExists_filter_mono (l : EventLog) (p : BEvent → Bool)
    (ty : BookingEventType) (rid : Int)
    (h : eventExists (l.filter p) ty rid = true) : eventExists l ty rid = true := by
  simp only [eventExists, List.any_eq_true] at h ⊢
  obtain ⟨e, he, hp⟩ := h
  exact ⟨e, (List.mem_filter.mp he).1, hp⟩

theorem eventExists_filter_del (l : EventLog) (rid : Int) :
    eventExists
      (l.filter fun e => !(e.event_type == BookingEventType.COMPLETED
        && e.record_id == some rid))
      .COMPLETED rid = false := by
  rw [Bool.eq_false_iff]
  intro h
  simp only [eventExists, List.any_eq_true] at h
  obtain ⟨e, he, hp⟩ := h
  have := (List.mem_filter.mp he).2
  rw [hp] at this
  simp at this

/-- Appending a non-COMPLETED event preserves the invariant, provided a
CANCELLED event is only appended when no COMPLETED event for its record
id is present. -/
theorem evInv_append (log : EventLog) (e : BEvent)
    (hnc : e.event_type ≠ .COMPLETED)
    (hcz : ∀ rid : Int, e.event_type = .CANCELLED → e.record_id = some rid →
      completedExists log rid = false)
    (h : EvInv log) : EvInv (log ++ [e]) := by
  obtain ⟨h1, h2⟩ := h
  constructor
  · intro rid ⟨hc, hx⟩
    rw [completedExists_eq, eventExists_append] at hc
    have hc' : completedExists log rid = true := by
      rcases Bool.or_eq_true_iff.mp hc with h' | h'
      · exact h'
      · exact absurd (by simpa using (Bool.and_eq_true_iff.mp h').1) hnc
    rw [cancelledExists_eq, eventExists_append] at hx
    rcases Bool.or_eq_true_iff.mp hx with h' | h'
    · exact h1 rid ⟨hc', h'⟩
    · obtain ⟨hty, hrid⟩ := Bool.and_eq_true_iff.mp h'
      have := hcz rid (by simpa using hty) (by simpa using hrid)
      rw [this] at hc'
      exact absurd hc' (by simp)
  · intro e' he' hty
    rcases List.mem_append.mp he' with he' | he'
    · exact h2 e' he' hty
    · rw [List.mem_singleton] at he'
      subst he'
      exact absurd hty hnc

/-- If every COMPLETED event has a nonzero record id, there is no
COMPLETED event for record id 0. -/
theorem completedExists_zero (log : EventLog)
    (h2 : ∀ e ∈ log, e.event_type = .COMPLETED → ∃ r : Int, e.record_id = some r ∧ r ≠ 0) :
    completedExists log 0 = false := by
  rw [Bool.eq_false_iff]
  intro h
  simp only [completedExists, List.any_eq_true] at h
  obtain ⟨e, he, hp⟩ := h
  obtain ⟨hty, hrid⟩ := Bool.and_eq_true_iff.mp hp
  obtain ⟨r, hr, hrne⟩ := h2 e he (by simpa using hty)
  rw [hr] at hrid
  simp at hrid
  exact hrne hrid

/-- Filtering the log preserves the invariant. -/
theorem evInv_filter (log : EventLog) (p : BEvent → Bool) (h : EvInv log) :
    EvInv (log.filter p) := by
  obtain ⟨h1, h2⟩ := h
  constructor
  · intro rid ⟨hc, hx⟩
    rw [completedExists_eq] at hc
    rw [cancelledExists_eq] at hx
    exact h1 rid ⟨eventExists_filter_mono _ _ _ _ hc, eventExists_filter_mono _ _ _ _ hx⟩
  · intro e he hty
    exact h2 e (List.mem_filter.mp he).1 hty

/-- `log_booking_event` preserves the invariant for every
non-COMPLETED event type. -/
theorem evInv_log_booking_event (log : EventLog) (uid : Nat)
    (ty : BookingEventType) (recId : Option Int) (now : Int)
    (hnc : ty ≠ .COMPLETED) (h : EvInv log) :
    EvInv (log_booking_event log uid ty recId now) := by
  unfold log_booking_event
  by_cases hdel : (ty == BookingEventType.CANCELLED
      && (match recId with | some r => r != 0 | none => false)) = true
  · rw [if_pos hdel]
    obtain ⟨hty, htr⟩ := Bool.and_eq_true_iff.mp hdel
    have hty' : ty = .CANCELLED := by simpa using hty
    obtain ⟨r, hr⟩ : ∃ r : Int, recId = some r := by
      cases recId with
      | none => simp at htr
      | some r => exact ⟨r, rfl⟩
    subst hr
    refine evInv_append _ _ hnc ?_ (evInv_filter log _ h)
    intro rid _ hrid
    injection hrid with hrid
    subst hrid
    rw [completedExists_eq]
    exact eventExists_filter_del log r
  · rw [if_neg hdel]
    refine evInv_append _ _ hnc ?_ h
    intro rid hty' hrid
    subst hrid
    -- the delete guard failed although the type is CANCELLED, so the
    -- record id must be 0
    have hr0 : rid = 0 := by
      have hty2 : ty = .CANCELLED := hty'
      rw [hty2] at hdel
      simp at hdel
      omega
    subst hr0
    exact completedExists_zero log h.2

/-- Appending a COMPLETED event with a nonzero record id is safe when
no CANCELLED event for that record id is present. -/
theorem evInv_append_completed (log : EventLog) (uid : Nat) (rid : Int) (now : Int)
    (hr : rid ≠ 0) (hc : cancelledExists log rid = false) (h : EvInv log) :
    EvInv (log ++ [{ user_id := uid, event_type := .COMPLETED,
                     record_id := some rid, created_at := now }]) := by
  obtain ⟨h1, h2⟩ := h
  constructor
  · intro rid' ⟨hcp, hcx⟩
    rw [cancelledExists_eq, eventExists_append] at hcx
    have hcx' : cancelledExists log rid' = true := by
      rcases Bool.or_eq_true_iff.mp hcx with h' | h'
      · exact h'
      · obtain ⟨hty, _⟩ := Bool.and_eq_true_iff.mp h'
        simp at hty
    rw [completedExists_eq, eventExists_append] at hcp
    rcases Bool.or_eq_true_iff.mp hcp with h' | h'
    · exact h1 rid' ⟨h', hcx'⟩
    · obtain ⟨_, hrid⟩ := Bool.and_eq_true_iff.mp h'
      have hrr : rid = rid' := by simpa using hrid
      subst hrr
      rw [hc] at hcx'
      exact absurd hcx' (by simp)
  · intro e he hty
    rcases List.mem_append.mp he with he | he
    · exact h2 e he hty
    · rw [List.mem_singleton] at he
      subst he
      exact ⟨rid, rfl, hr⟩

theorem log_booking_event_completed (log : EventLog) (uid : Nat) (rid : Int) (now : Int) :
    log_booking_event log uid .COMPLETED (some rid) now
      = log ++ [{ user_id := uid, event_type := .COMPLETED,
                  record_id := some rid, created_at := now }] := by
  unfold log_booking_event
  simp

/-- `_log_event_if_needed` preserves the invariant for the event kinds
the reconciler feeds it (COMPLETED only behind the conflict guard). -/
theorem evInv_log_event_if_needed (log : EventLog) (uid : Nat) (rid : Int)
    (ty : BookingEventType) (now : Int)
    (hr : rid ≠ 0)
    (hty : ty = .CREATED ∨ ty = .CANCELLED
      ∨ (ty = .COMPLETED ∧ cancelledExists log rid = false))
    (h : EvInv log) :
    EvInv (log_event_if_needed log uid rid ty now).1 := by
  unfold log_event_if_needed
  rcases hty with hty | hty | ⟨hty, hc⟩
  · subst hty
    simp only [show (BookingEventType.CREATED == BookingEventType.CANCELLED) = false by rfl,
      Bool.false_eq_true, if_false]
    split
    · exact h
    · exact evInv_log_booking_event log uid .CREATED (some rid) now (by simp) h
  · subst hty
    simp only [show (BookingEventType.CANCELLED == BookingEventType.CANCELLED) = true by rfl,
      if_true]
    split
    · exact evInv_filter log _ h
    · exact evInv_log_booking_event _ uid .CANCELLED (some rid) now (by simp)
        (evInv_filter log _ h)
  · subst hty
    simp only [show (BookingEventType.COMPLETED == BookingEventType.CANCELLED) = false by rfl,
      Bool.false_eq_true, if_false]
    split
    · exact h
    · rw [log_booking_event_completed]
      exact evInv_append_completed log uid rid now hr hc h

/-- Logging a CREATED event does not change which CANCELLED events exist. -/
theorem cancelledExists_lein_created (log : EventLog) (uid : Nat) (rid : Int)
    (now : Int) (rid' : Int) :
    cancelledExists (log_event_if_needed log uid rid .CREATED now).1 rid'
      = cancelledExists log rid' := by
  unfold log_event_if_needed log_booking_event
  simp only [show (BookingEventType.CREATED == BookingEventType.CANCELLED) = false by rfl,
    Bool.false_eq_true, if_false, Bool.false_and]
  split
  · rfl
  · rw [cancelledExists_eq, eventExists_append]
    simp [cancelledExists_eq]

theorem emitStep_fst (uid : Nat) (rid : Int) (now : Int)
    (acc : EventLog × Stats) (ev : BookingEventType) :
    (emitStep uid rid now acc ev).1 = (log_event_if_needed acc.1 uid rid ev now).1 := by
  obtain ⟨log, st⟩ := acc
  unfold emitStep
  rcases hle : log_event_if_needed log uid rid ev now with ⟨log2, added⟩
  simp [hle]

/-- The per-record reconciler step preserves the invariant. -/
theorem evInv_processRecord (users : List UserRow) (w : Int) (now : Int)
    (acc : EventLog × Stats) (r : Rec) (h : EvInv acc.1) :
    EvInv (processRecord users w now acc r).1 := by
  obtain ⟨log, st⟩ := acc
  rcases hrid : extract_record_id r with _ | rid
  · simpa [processRecord, hrid] using h
  by_cases hz : rid = 0
  · simpa [processRecord, hrid, hz] using h
  rcases hru : resolveUser users r with _ | user
  · simpa [processRecord, hrid, hz, hru] using h
  rcases hlc : lastClick log user.id with _ | click
  · simpa [processRecord, hrid, hz, hru, hlc] using h
  by_cases hwin : absDelta (referenceDt r now) click > w
  · simpa [processRecord, hrid, hz, hru, hlc, hwin] using h
  by_cases hguard : (map_record_status r == BookingEventType.COMPLETED
      && cancelledExists log rid) = true
  · simpa [processRecord, hrid, hz, hru, hlc, hwin, hguard] using h
  · have hmain : (processRecord users w now (log, st) r).1 =
        (([BookingEventType.CREATED] ++
          (if map_record_status r == BookingEventType.CANCELLED
           then [BookingEventType.CANCELLED]
           else if map_record_status r == BookingEventType.COMPLETED
           then [BookingEventType.COMPLETED]
           else [])).foldl (emitStep user.id rid now) (log, st)).1 := by
      simp [processRecord, hrid, hz, hru, hlc, hwin, hguard]
    rw [hmain]
    by_cases hcanc : map_record_status r = BookingEventType.CANCELLED
    · have hl : ([BookingEventType.CREATED] ++
          (if map_record_status r == BookingEventType.CANCELLED
           then [BookingEventType.CANCELLED]
           else if map_record_status r == BookingEventType.COMPLETED
           then [BookingEventType.COMPLETED]
           else [])) = [BookingEventType.CREATED, BookingEventType.CANCELLED] := by
        simp [hcanc]
      rw [hl]
      simp only [List.foldl]
      rw [emitStep_fst, emitStep_fst]
      refine evInv_log_event_if_needed _ user.id rid .CANCELLED now hz
        (Or.inr (Or.inl rfl)) ?_
      exact evInv_log_event_if_needed _ user.id rid .CREATED now hz (Or.inl rfl) h
    by_cases hcomp : map_record_status r = BookingEventType.COMPLETED
    · have hcx : cancelledExists log rid = false := by
        rw [hcomp] at hguard
        simpa using hguard
      have hl : ([BookingEventType.CREATED] ++
          (if map_record_status r == BookingEventType.CANCELLED
           then [BookingEventType.CANCELLED]
           else if map_record_status r == BookingEventType.COMPLETED
           then [BookingEventType.COMPLETED]
           else [])) = [BookingEventType.CREATED, BookingEventType.COMPLETED] := by
        simp [hcanc, hcomp]
      rw [hl]
      simp only [List.foldl]
      rw [emitStep_fst, emitStep_fst]
      refine evInv_log_event_if_needed _ user.id rid .COMPLETED now hz
        (Or.inr (Or.inr ⟨rfl, ?_⟩)) ?_
      · rw [cancelledExists_lein_created]
        exact hcx
      · exact evInv_log_event_if_needed _ user.id rid .CREATED now hz (Or.inl rfl) h
    · have hl : ([BookingEventType.CREATED] ++
          (if map_record_status r == BookingEventType.CANCELLED
           then [BookingEventType.CANCELLED]
           else if map_record_status r == BookingEventType.COMPLETED
           then [BookingEventType.COMPLETED]
           else [])) = [BookingEventType.CREATED] := by
        simp [hcanc, hcomp]
      rw [hl]
      simp only [List.foldl]
      rw [emitStep_fst]
      exact evInv_log_event_if_needed _ user.id rid .CREATED now hz (Or.inl rfl) h

theorem evStep_inv (log : EventLog) (op : EvOp) (h : EvInv log) :
    EvInv (evStep log op) := by
  cases op with
  | logNonTerminal uid isClick recId now =>
    show EvInv (log_booking_event log uid
      (if isClick then .CLICK_BOOKING else .CREATED) recId now)
    refine evInv_log_booking_event log uid _ recId now ?_ h
    by_cases hc : isClick <;> simp [hc]
  | botCancel uid rid now =>
    show EvInv (log_booking_event log uid .CANCELLED (some rid) now)
    exact evInv_log_booking_event log uid .CANCELLED (some rid) now (by simp) h
  | adminCancel uid rid now =>
    show EvInv (if cancelledExists log rid then log
      else log_booking_event log uid .CANCELLED (some rid) now)
    split
    · exact h
    · exact evInv_log_booking_event log uid .CANCELLED (some rid) now (by simp) h
  | reconcile users recs w now =>
    show EvInv ((recs.foldl (processRecord users w now) (log, {})).1)
    have hgen : ∀ (acc : EventLog × Stats), EvInv acc.1 →
        EvInv (recs.foldl (processRecord users w now) acc).1 := by
      induction recs with
      | nil => intro acc hacc; exact hacc
      | cons r rest ih =>
        intro acc hacc
        exact ih _ (evInv_processRecord users w now acc r hacc)
    exact hgen (log, {}) h

theorem evRun_inv (ops : List EvOp) : EvInv (evRun ops) := by
  have hgen : ∀ (log : EventLog), EvInv log → EvInv (ops.foldl evStep log) := by
    induction ops with
    | nil => intro log hl; exact hl
    | cons op rest ih => intro log hl; exact ih _ (evStep_inv log op hl)
  refine hgen [] ⟨?_, ?_⟩
  · intro rid hcc
    simp [completedExists] at hcc
  · intro e he
    simp at he

/-- C2: in no reachable state do a COMPLETED and a CANCELLED event for
the same external record id coexist; logging a CANCELLED deletes any
prior COMPLETED with the same record id; and a COMPLETED
classification is refused (the record is skipped, nothing emitted)
when a CANCELLED event for that record id already exists. -/
theorem C2_terminal_exclusivity :
    (∀ (ops : List EvOp) (rid : Int),
      ¬(completedExists (evRun ops) rid = true ∧ cancelledExists (evRun ops) rid = true))
    ∧ (∀ (log : EventLog) (uid : Nat) (rid : Int) (now : Int), rid ≠ 0 →
        completedExists (log_booking_event log uid .CANCELLED (some rid) now) rid = false)
    ∧ (∀ (log : EventLog) (st : Stats) (users : List UserRow) (w now : Int) (r : Rec)
        (rid : Int), extract_record_id r = some rid →
        map_record_status r = .COMPLETED →
        cancelledExists log rid = true →
        processRecord users w now (log, st) r = (log, st)) := by
  refine ⟨?_, ?_, ?_⟩
  · intro ops rid
    exact (evRun_inv ops).1 rid
  · intro log uid rid now hr
    have hev : log_booking_event log uid .CANCELLED (some rid) now
        = (log.filter fun e =>
            !(e.event_type == BookingEventType.COMPLETED && e.record_id == some rid))
          ++ [{ user_id := uid, event_type := .CANCELLED,
                record_id := some rid, created_at := now }] := by
      unfold log_booking_event
      simp [hr]
    rw [hev, completedExists_eq, eventExists_append]
    rw [eventExists_filter_del]
    simp
  · intro log st users w now r rid hrid hmap hc
    by_cases hz : rid = 0
    · simp [processRecord, hrid, hz]
    rcases hru : resolveUser users r with _ | user
    · simp [processRecord, hrid, hz, hru]
    rcases hlc : lastClick log user.id with _ | click
    · simp [processRecord, hrid, hz, hru, hlc]
    by_cases hwin : absDelta (referenceDt r now) click > w
    · simp [processRecord, hrid, hz, hru, hlc, hwin]
    · have hguard : (map_record_status r == BookingEventType.COMPLETED
          && cancelledExists log rid) = true := by
        simp [hmap, hc]
      simp [processRecord, hrid, hz, hru, hlc, hwin, hguard]

/-- Witness for C2: logging a cancellation for record 5 removes the
previously logged completion for record 5. -/
theorem C2_terminal_exclusivity_witness :
    completedExists
      (log_booking_event
        [{ user_id := 1, event_type := .COMPLETED, record_id := some 5, created_at := 0 }]
        1 .CANCELLED (some 5) 10) 5 = false :=
  C2_terminal_exclusivity.2.1
    [{ user_id := 1, event_type := .COMPLETED, record_id := some 5, created_at := 0 }]
    1 5 10 (by decide)

/-! ### C3: failure semantics of the reconciliation run -/

/-- C3 counterexample: a parse failure of the external fetch (a 200
response with an unparsable body) does not abort the run as a failure —
the run returns success with zero records processed. -/
theorem C3_counterexample :
    sync_yclients_records_once [] [] .badJson 30 0 = .ok ([], {})
    ∧ ({} : Stats).success = true := by
  exact ⟨rfl, rfl⟩

/-- C3 (amended): a network failure (raised transport exception)
aborts the whole run and propagates to the caller; a non-200 response
or a JSON parse failure yields an empty record list and the run
returns success with zero counters and no log change; and a failure
resolving a single record (no id, no matching identity) only skips
that record — the run over a parsed batch never aborts. -/
theorem C3_failure_semantics :
    (∀ (users : List UserRow) (log : EventLog) (w now : Int),
      sync_yclients_records_once users log .netError w now = .error ())
    ∧ (∀ (users : List UserRow) (log : EventLog) (w now : Int),
      sync_yclients_records_once users log .badJson w now = .ok (log, {}))
    ∧ (∀ (users : List UserRow) (log : EventLog) (w now : Int) (st : Nat),
      sync_yclients_records_once users log (.httpError st) w now = .ok (log, {}))
    ∧ (∀ (users : List UserRow) (log : EventLog) (w now : Int) (recs : List Rec),
      sync_yclients_records_once users log (.okJson (.dict (some recs))) w now ≠ .error ())
    ∧ (∀ (users : List UserRow) (w now : Int) (acc : EventLog × Stats) (r : Rec),
      extract_record_id r = none → processRecord users w now acc r = acc)
    ∧ (∀ (users : List UserRow) (w now : Int) (acc : EventLog × Stats) (r : Rec)
        (rid : Int), extract_record_id r = some rid → rid ≠ 0 →
      resolveUser users r = none → processRecord users w now acc r = acc) := by
  refine ⟨fun _ _ _ _ => rfl, fun _ _ _ _ => rfl, fun _ _ _ _ _ => rfl, ?_, ?_, ?_⟩
  · intro users log w now recs hcontra
    simp only [sync_yclients_records_once, get_all_records, yclients_get] at hcontra
    split at hcontra <;> exact Except.noConfusion hcontra
  · intro users w now acc r h
    obtain ⟨log, st⟩ := acc
    simp [processRecord, h]
  · intro users w now acc r rid hrid hz hru
    obtain ⟨log, st⟩ := acc
    simp [processRecord, hrid, hz, hru]

/-- Witness for C3: a record with no id is skipped and the accumulator
is returned unchanged. -/
theorem C3_failure_semantics_witness :
    processRecord [] 30 0 ([], {}) {} = ([], {}) :=
  C3_failure_semantics.2.2.2.2.1 [] 30 0 ([], {}) {} rfl

/-! ### C5: status mapping -/

/-- C5: classification follows the claim's five first-match-wins rules
(deleted flag, numeric attendance code, cancellation keywords,
completion keywords or paid indicator, default CREATED); in particular
a record with `attendance = 2` and `is_payed = false` maps to
COMPLETED. -/
theorem C5_status_mapping :
    (∀ r : Rec, map_record_status r = spec_map_status r)
    ∧ map_record_status { attendance := some (.pInt 2), is_payed := false } = .COMPLETED :=
  ⟨fun _ => rfl, by decide⟩

/-! ### C6: the attribution window -/

def c6users : List UserRow := [{ id := 1, phone := some "89991234567" }]

def c6log : EventLog :=
  [{ user_id := 1, event_type := .CLICK_BOOKING, record_id := none, created_at := 1000 }]

def c6rec29 : Rec :=
  { id := some 100, client := some { phone := some "+7 999 123-45-67" },
    create_date := some 1029 }

def c6rec31 : Rec :=
  { id := some 100, client := some { phone := some "+7 999 123-45-67" },
    create_date := some 1031 }

/-- C6: a record produces booking events only when the resolved
identity has a prior ClickBooking and the absolute delta between the
record's reference datetime and the most recent click is within the
window; with the default 30-minute window, a record 31 minutes from
the click yields no event and one 29 minutes away is attributed. -/
theorem C6_attribution_window :
    (∀ (users : List UserRow) (w now : Int) (log : EventLog) (st : Stats) (r : Rec),
      (processRecord users w now (log, st) r).1 ≠ log →
      ∃ user click, resolveUser users r = some user
        ∧ lastClick log user.id = some click
        ∧ absDelta (referenceDt r now) click ≤ w)
    ∧ (processRecord c6users 30 2000 (c6log, {}) c6rec31).1 = c6log
    ∧ (processRecord c6users 30 2000 (c6log, {}) c6rec29).1
        = c6log ++ [{ user_id := 1, event_type := .CREATED, record_id := some 100,
                      created_at := 2000 }] := by
  refine ⟨?_, by decide, by decide⟩
  intro users w now log st r hne
  rcases hrid : extract_record_id r with _ | rid
  · exact absurd (by simp [processRecord, hrid]) hne
  by_cases hz : rid = 0
  · exact absurd (by simp [processRecord, hrid, hz]) hne
  rcases hru : resolveUser users r with _ | user
  · exact absurd (by simp [processRecord, hrid, hz, hru]) hne
  rcases hlc : lastClick log user.id with _ | click
  · exact absurd (by simp [processRecord, hrid, hz, hru, hlc]) hne
  by_cases hwin : absDelta (referenceDt r now) click > w
  · exact absurd (by simp [processRecord, hrid, hz, hru, hlc, hwin]) hne
  · exact ⟨user, click, hru ▸ rfl, hlc, le_of_not_lt hwin⟩


/-- Witness for C6: the 29-minute record is attributed through a click
of the resolved identity within the window. -/
theorem C6_attribution_window_witness :
    ∃ user click, resolveUser c6users c6rec29 = some user
      ∧ lastClick c6log user.id = some click
      ∧ absDelta (referenceDt c6rec29 2000) click ≤ 30 :=
  C6_attribution_window.1 c6users 30 2000 c6log {} c6rec29 (by decide)

/-! ### C9: phone normalization -/

theorem normalize_phone_some_len (l : List Char) (s : String)
    (h : (if l.length = 11 then some (String.mk l) else none) = some s) :
    s.data.length = 11 := by
  by_cases hl : l.length = 11
  · rw [if_pos hl] at h
    injection h with h'
    subst h'
    exact hl
  · rw [if_neg hl] at h
    cases h

theorem normalize_phone_shape (p : String) :
    normalize_phone p = none ∨ ∃ l : List Char, normalize_phone p =
      (if l.length = 11 then some (String.mk l) else none) := by
  unfold normalize_phone
  by_cases h0 : p = ""
  · left
    rw [if_pos h0]
  · rw [if_neg h0]
    by_cases h1 : p.data.filter Char.isDigit = []
    · left
      rw [if_pos h1]
    · right
      rw [if_neg h1]
      exact ⟨_, rfl⟩

/-- C9 counterexample: an 11-digit input starting with neither 7 nor 8
is returned unchanged, so normalization does not always yield a
leading country digit 7. -/
theorem C9_counterexample :
    normalize_phone "19991234567" = some "19991234567"
    ∧ "19991234567".data.head? = some '1'
    ∧ ('1' : Char) ≠ '7' := by decide

/-- C9 (amended): normalization returns null or an 11-digit string (an
11-digit leading-8 input has the 8 replaced by 7, a bare 10-digit
input is prefixed with 7, anything else than exactly 11 digits gives
null); the inputs "89991234567", "+7 999 123-45-67" and "9991234567"
all normalize to "79991234567" and are mutually matchable via its
variant set. -/
theorem C9_phone_normalization :
    (∀ (p : String) (s : String), normalize_phone p = some s → s.data.length = 11)
    ∧ normalize_phone "89991234567" = some "79991234567"
    ∧ normalize_phone "+7 999 123-45-67" = some "79991234567"
    ∧ normalize_phone "9991234567" = some "79991234567"
    ∧ ("79991234567" : String) ∈ phone_variants (some "79991234567")
    ∧ ("+79991234567" : String) ∈ phone_variants (some "79991234567")
    ∧ ("89991234567" : String) ∈ phone_variants (some "79991234567")
    ∧ ("9991234567" : String) ∈ phone_variants (some "79991234567") := by
  refine ⟨?_, by decide, by decide, by decide, by decide, by decide, by decide, by decide⟩
  intro p s h
  rcases normalize_phone_shape p with hsh | ⟨l, hsh⟩
  · rw [hsh] at h
    cases h
  · rw [hsh] at h
    exact normalize_phone_some_len l s h

/-- Witness for C9: the leading-8 example input. -/
theorem C9_phone_normalization_witness :
    ("79991234567" : String).data.length = 11 :=
  C9_phone_normalization.1 "89991234567" "79991234567" (by decide)

end LoyaltyBot
